import Mathlib

/-!
Verification of the Aviso SSE client (`cli.py`).

The file shallowly embeds the client: the `EventType` enumeration and its
`from_string` lookup, the per-event processing body of
`AvisoSSEClient.connect` (guard on non-empty data, JSON decode, classify,
dispatch via the `match` statement, per-event `except` clauses), the
session loop over the events of one connection (with the `self.running`
checkpoint before each event), the outer `while self.running` reconnect
loop (connect attempt, `raise_for_status`, the `except` branches with
`time.sleep(self.retry_interval)`), and the mutable client state touched
by `__init__`, `connect` and `stop`.

External collaborators (the JSON parser, the SSE framing layer, the HTTP
transport) are parameters: the JSON decoder is an arbitrary function
`String → Option δ`, the framing layer delivers a list of raw events and
an end-of-stream mode, and the transport outcome of each connect attempt
is given by an `attempts` schedule.  The concurrently mutable
`self.running` flag is modelled as a function of a checkpoint clock: the
loop reads the flag at checkpoints (the `while` condition, the per-event
`if not self.running`, the `if self.running` guards before each sleep)
and the function gives the value observed at each read.
-/

/-- The `EventType` enumeration of `cli.py`. -/
inductive EventType where
  | LIVE_NOTIFICATION
  | REPLAY
  | REPLAY_CONTROL
  | HEARTBEAT
  | UNKNOWN
deriving DecidableEq, Repr

/-- The `value` of each enum member, as in the Python source. -/
def EventType.value : EventType → String
  | .LIVE_NOTIFICATION => "live-notification"
  | .REPLAY => "replay"
  | .REPLAY_CONTROL => "replay-control"
  | .HEARTBEAT => "heartbeat"
  | .UNKNOWN => "unknown"

/-- Members of the enum in Python iteration (definition) order. -/
def EventType.members : List EventType :=
  [.LIVE_NOTIFICATION, .REPLAY, .REPLAY_CONTROL, .HEARTBEAT, .UNKNOWN]

/-- `EventType.from_string`: scan the members in order, return the first
whose `value` equals the argument, else `UNKNOWN`. -/
def EventType.from_string (value : String) : EventType :=
  match EventType.members.find? (fun event_type => event_type.value == value) with
  | some event_type => event_type
  | none => .UNKNOWN

/-- `sse_event.event or "unknown"`: Python `or` replaces both `None` and
the empty string by `"unknown"`. -/
def labelOrUnknown : Option String → String
  | none => "unknown"
  | some s => if s = "" then "unknown" else s

/-- Classification as performed at line 81 of `cli.py`:
`EventType.from_string(sse_event.event or "unknown")`. -/
def classify (label : Option String) : EventType :=
  EventType.from_string (labelOrUnknown label)

/-- Modelled from the spec: the fixed table of §4.1 — each known label to
its kind, absent or unmatched label to `Unknown`. -/
def classifySpec : Option String → EventType
  | none => .UNKNOWN
  | some s =>
      if s = "live-notification" then .LIVE_NOTIFICATION
      else if s = "replay" then .REPLAY
      else if s = "replay-control" then .REPLAY_CONTROL
      else if s = "heartbeat" then .HEARTBEAT
      else .UNKNOWN

/-- A raw event as delivered by the framing layer: an optional type label
(`sse_event.event`) and an optional data payload (`sse_event.data`). -/
structure RawEvent where
  event : Option String
  data : Option String
deriving DecidableEq, Repr

/-- One handler invocation: the classified kind and the decoded payload
handed to the handler of that kind by the `match` statement. -/
structure Invocation (δ : Type) where
  kind : EventType
  payload : δ
deriving DecidableEq, Repr

/-- Outcome of the per-event body (lines 78-99 of `cli.py`) for one event:
skipped by the `if sse_event.data` guard, dispatched successfully,
dispatched with the handler raising (caught at line 98), or a JSON decode
failure (caught at line 96). -/
inductive EventOutcome (δ : Type) where
  | skipped
  | dispatched (inv : Invocation δ)
  | handlerError (inv : Invocation δ) (msg : String)
  | decodeError (msg : String)
deriving DecidableEq, Repr

/-- The handler invocation performed for an event, if any: the handler is
invoked exactly when the payload decoded, whether or not it then raised. -/
def EventOutcome.invocation {δ : Type} : EventOutcome δ → Option (Invocation δ)
  | .skipped => none
  | .dispatched inv => some inv
  | .handlerError inv _ => some inv
  | .decodeError _ => none

/-- The per-event body of the `for sse_event in client.events()` loop:
`if sse_event.data:` guard (Python truthiness: `None` and `""` are
falsy), then `json.loads`, then `EventType.from_string(sse_event.event or
"unknown")`, then the `match` dispatch.  `decode` is the JSON parser
(external collaborator); `handler` is the registry of the five handlers,
returning `Except.error` when the handler raises. -/
def processEvent {δ : Type} (decode : String → Option δ)
    (handler : EventType → δ → Except String Unit) (e : RawEvent) :
    EventOutcome δ :=
  match e.data with
  | none => .skipped
  | some s =>
      if s = "" then .skipped
      else
        match decode s with
        | none => .decodeError s
        | some data =>
            let event_type := classify e.event
            match handler event_type data with
            | .ok _ => .dispatched ⟨event_type, data⟩
            | .error msg => .handlerError ⟨event_type, data⟩ msg

/-- How the stream of one session ends when all its events have been
delivered: the transport closes it normally (the `for` loop finishes) or
the read raises (caught by the outer `except` clauses). -/
inductive StreamEnd where
  | normal
  | readError (msg : String)
deriving DecidableEq, Repr

/-- Outcome of one session (one pass of the inner `for` loop). -/
inductive SessionOutcome where
  | stoppedByCaller
  | endOfStream
  | disconnectedByError (msg : String)
deriving DecidableEq, Repr

/-- The inner `for sse_event in client.events()` loop.  `running t` is the
value of `self.running` observed at the `if not self.running` checkpoint
before the event delivered at clock `t`; `t` advances by one per
delivered event.  Returns the per-event log (clock paired with the
event's outcome, in processing order), whether the loop exited via
`break` because the flag was false, and the clock after the loop. -/
def sessionSteps {δ : Type} (decode : String → Option δ)
    (handler : EventType → δ → Except String Unit) (running : Nat → Bool) :
    Nat → List RawEvent → List (Nat × EventOutcome δ) × Bool × Nat
  | t, [] => ([], false, t)
  | t, e :: rest =>
      if running t then
        let out := processEvent decode handler e
        let r := sessionSteps decode handler running (t + 1) rest
        ((t, out) :: r.1, r.2)
      else
        ([], true, t + 1)

/-- Outcome of one session: `break` on the stop flag yields
`stoppedByCaller`; otherwise the stream's end decides. -/
def sessionOutcome (stopped : Bool) (ending : StreamEnd) : SessionOutcome :=
  if stopped then .stoppedByCaller
  else
    match ending with
    | .normal => .endOfStream
    | .readError msg => .disconnectedByError msg

/-- Observable actions of the connect/consume/reconnect loop, in order.
`connectAttempt p` is the `requests.post(url, json=payload, ...)` call
carrying the subscription payload `p`; `dispatch`/`logDecodeError`/
`logHandlerError` are the per-event effects; `logConnectError` is the
`print` in the `except RequestException` branch for a failed connect;
`logStreamError` the same branch entered from a read error; `sleep` is
`time.sleep(self.retry_interval)`. -/
inductive LoopAction (δ π : Type) where
  | connectAttempt (p : π)
  | dispatch (t : Nat) (inv : Invocation δ)
  | logDecodeError (t : Nat) (msg : String)
  | logHandlerError (t : Nat) (msg : String)
  | logConnectError
  | logStreamError (msg : String)
  | sleep (interval : Nat)
deriving DecidableEq, Repr

/-- The actions produced by one event's outcome: a dispatched event
invokes its handler; a handler that raises was still invoked and its
error is logged; a decode failure is logged; a skipped event produces
nothing. -/
def eventActions {δ π : Type} (t : Nat) : EventOutcome δ → List (LoopAction δ π)
  | .skipped => []
  | .dispatched inv => [.dispatch t inv]
  | .handlerError inv msg => [.dispatch t inv, .logHandlerError t msg]
  | .decodeError msg => [.logDecodeError t msg]

/-- Actions of a whole session log. -/
def sessionActions {δ π : Type} (log : List (Nat × EventOutcome δ)) :
    List (LoopAction δ π) :=
  log.flatMap (fun p => eventActions p.1 p.2)

/-- Transport-level result of one connect attempt (attempt number `k`):
either `requests.post`/`raise_for_status` raises (`connectFail`), or a
stream opens and delivers the listed events, then ends as `ending`. -/
inductive AttemptSpec (δ : Type) where
  | connectFail (msg : String)
  | stream (events : List RawEvent) (ending : StreamEnd)

/-- How a run of the outer loop ended: `exited t k` means the `while
self.running` condition read false at clock `t` before attempt `k` and
`connect` returned; `outOfFuel` means the loop was still running after
`fuel` iterations. -/
inductive LoopResult where
  | exited (t k : Nat)
  | outOfFuel (t k : Nat)
deriving DecidableEq, Repr

/-- The outer `while self.running` loop of `AvisoSSEClient.connect`
(lines 64-113).  Each iteration: read the flag at clock `t` (the `while`
condition); if false, return.  Otherwise run attempt `k` per the
`attempts` schedule.  A `connectFail` logs the connection error, reads
the flag once more (`if self.running:` line 103) and sleeps `retry` if it
is still true.  A `stream` runs the inner `for` loop from clock `t + 1`;
if it broke on the stop flag or the stream ended normally, control goes
straight back to the `while` condition (no sleep); a read error is caught
by the `except` clause, which logs it, reads the flag, and sleeps `retry`
if still true.  The subscription payload `p` is passed unchanged to every
`requests.post` and returned with the trace. -/
def connectLoop {δ π : Type} (decode : String → Option δ)
    (handler : EventType → δ → Except String Unit) (retry : Nat)
    (running : Nat → Bool) (attempts : Nat → AttemptSpec δ) (p : π) :
    Nat → Nat → Nat → List (LoopAction δ π) × LoopResult × π
  | 0, t, k => ([], .outOfFuel t k, p)
  | fuel + 1, t, k =>
      if running t then
        match attempts k with
        | .connectFail _ =>
            let tail :=
              if running (t + 1) then
                let r := connectLoop decode handler retry running attempts p
                  fuel (t + 2) (k + 1)
                (LoopAction.sleep retry :: r.1, r.2.1)
              else
                let r := connectLoop decode handler retry running attempts p
                  fuel (t + 2) (k + 1)
                (r.1, r.2.1)
            (LoopAction.connectAttempt p :: LoopAction.logConnectError :: tail.1,
              tail.2, p)
        | .stream events ending =>
            let s := sessionSteps decode handler running (t + 1) events
            let acts : List (LoopAction δ π) := sessionActions s.1
            match sessionOutcome s.2.1 ending with
            | .disconnectedByError msg =>
                let tail :=
                  if running s.2.2 then
                    let r := connectLoop decode handler retry running attempts p
                      fuel (s.2.2 + 1) (k + 1)
                    (LoopAction.logStreamError msg :: LoopAction.sleep retry :: r.1,
                      r.2.1)
                  else
                    let r := connectLoop decode handler retry running attempts p
                      fuel (s.2.2 + 1) (k + 1)
                    (LoopAction.logStreamError msg :: r.1, r.2.1)
                (LoopAction.connectAttempt p :: acts ++ tail.1, tail.2, p)
            | _ =>
                let r := connectLoop decode handler retry running attempts p
                  fuel s.2.2 (k + 1)
                (LoopAction.connectAttempt p :: acts ++ r.1, r.2.1, p)
      else
        ([], .exited t k, p)

/-- The mutable state of an `AvisoSSEClient` instance. -/
structure AvisoSSEClient where
  base_url : String
  retry_interval : Nat
  running : Bool
deriving DecidableEq, Repr

/-- `AvisoSSEClient.__init__`: `self.running = False`. -/
def AvisoSSEClient.init (base_url : String) (retry_interval : Nat) :
    AvisoSSEClient :=
  ⟨base_url, retry_interval, false⟩

/-- `AvisoSSEClient.stop`: `self.running = False`. -/
def AvisoSSEClient.stop (c : AvisoSSEClient) : AvisoSSEClient :=
  { c with running := false }

/-- The `self.running = True` assignment at the entry of
`AvisoSSEClient.connect` (line 62). -/
def AvisoSSEClient.connectEntry (c : AvisoSSEClient) : AvisoSSEClient :=
  { c with running := true }

/-- The operations of an existing client instance that write its state:
`stop()` and entering `connect()`. -/
inductive ClientOp where
  | stop
  | connectEntry
deriving DecidableEq, Repr

/-- Apply a client operation to a client state. -/
def ClientOp.apply : ClientOp → AvisoSSEClient → AvisoSSEClient
  | .stop, c => c.stop
  | .connectEntry, c => c.connectEntry

/-- The subscription payloads handed to `requests.post`, in trace order. -/
def connectPayloads {δ π : Type} (acts : List (LoopAction δ π)) : List π :=
  acts.filterMap (fun a =>
    match a with
    | .connectAttempt q => some q
    | _ => none)

/-- The dispatched handler invocations of a session log, paired with the
clock of their event, in log order. -/
def dispatchedOf {δ : Type} (log : List (Nat × EventOutcome δ)) :
    List (Nat × Invocation δ) :=
  log.filterMap (fun p => (p.2.invocation).map (fun inv => (p.1, inv)))

/-- **C2** — classification agrees with the spec's fixed table on every
label: each known label (`"live-notification"`, `"replay"`,
`"replay-control"`, `"heartbeat"`, `"unknown"`) maps to its kind and every
other label, including the empty or absent label, maps to `UNKNOWN`.
`classify` is a total Lean function, so it never fails, has no side
effects, and repeated classification of the same label yields the same
result. -/
theorem classify_eq_spec (label : Option String) :
    classify label = classifySpec label := by
  cases label with
  | none => rfl
  | some s =>
      simp only [classify, labelOrUnknown, classifySpec, EventType.from_string,
        EventType.members, List.find?, EventType.value]
      by_cases h0 : s = ""
      · subst h0; rfl
      · simp only [if_neg h0]
        by_cases h1 : s = "live-notification"
        · subst h1; rfl
        · by_cases h2 : s = "replay"
          · subst h2; rfl
          · by_cases h3 : s = "replay-control"
            · subst h3; rfl
            · by_cases h4 : s = "heartbeat"
              · subst h4; rfl
              · by_cases h5 : s = "unknown"
                · subst h5; rfl
                · have b1 : ("live-notification" == s) = false := by
                    simp [beq_iff_eq]; exact fun h => h1 h.symm
                  have b2 : ("replay" == s) = false := by
                    simp [beq_iff_eq]; exact fun h => h2 h.symm
                  have b3 : ("replay-control" == s) = false := by
                    simp [beq_iff_eq]; exact fun h => h3 h.symm
                  have b4 : ("heartbeat" == s) = false := by
                    simp [beq_iff_eq]; exact fun h => h4 h.symm
                  have b5 : ("unknown" == s) = false := by
                    simp [beq_iff_eq]; exact fun h => h5 h.symm
                  simp [b1, b2, b3, b4, b5, h1, h2, h3, h4, h5]

/-- Helper: with the stop flag never requested, the inner loop processes
every delivered event in order — each event contributes exactly its
`processEvent` outcome to the log — and never breaks. -/
theorem sessionSteps_run_all {δ : Type} (decode : String → Option δ)
    (handler : EventType → δ → Except String Unit) (t : Nat)
    (events : List RawEvent) :
    sessionSteps decode handler (fun _ => true) t events =
      ((events.enumFrom t).map
        (fun p => (p.1, processEvent decode handler p.2)),
       false, t + events.length) := by
  induction events generalizing t with
  | nil => simp [sessionSteps, List.enumFrom]
  | cons e rest ih =>
      have hstep : sessionSteps decode handler (fun _ => true) t (e :: rest) =
          ((t, processEvent decode handler e) ::
            (sessionSteps decode handler (fun _ => true) (t + 1) rest).1,
           (sessionSteps decode handler (fun _ => true) (t + 1) rest).2) := rfl
      have harith : t + 1 + rest.length = t + (rest.length + 1) := by omega
      rw [hstep, ih (t + 1)]
      simp [List.enumFrom, harith]

/-- **C1** — per-event failures are contained: with no stop requested,
every event of a session is processed (the log pairs each delivered event
with its own outcome — a `decodeError` for malformed JSON, a
`handlerError` for a handler that raised, both recorded rather than
propagated), the inner loop never breaks because of such a failure, and
the session outcome seen by the reconnect loop is determined by the
stream's ending alone, independent of any per-event failure. -/
theorem event_failures_contained {δ : Type} (decode : String → Option δ)
    (handler : EventType → δ → Except String Unit) (t : Nat)
    (events : List RawEvent) (ending : StreamEnd) :
    (sessionSteps decode handler (fun _ => true) t events).1 =
      (events.enumFrom t).map
        (fun p => (p.1, processEvent decode handler p.2)) ∧
    (sessionSteps decode handler (fun _ => true) t events).2.1 = false ∧
    sessionOutcome
      (sessionSteps decode handler (fun _ => true) t events).2.1 ending =
      sessionOutcome false ending := by
  rw [sessionSteps_run_all]
  exact ⟨rfl, rfl, rfl⟩

/-- **C3** — an event whose payload is present and decodes successfully
invokes exactly one handler, the one of the classified kind of its type
label, and hands it the decoded payload; this holds whether or not the
handler then raises. -/
theorem decoded_event_dispatched_once {δ : Type} (decode : String → Option δ)
    (handler : EventType → δ → Except String Unit) (e : RawEvent)
    (s : String) (d : δ) (hs : e.data = some s) (hne : s ≠ "")
    (hd : decode s = some d) :
    (processEvent decode handler e).invocation =
      some ⟨classify e.event, d⟩ := by
  simp only [processEvent, hs, if_neg hne, hd]
  cases handler (classify e.event) d <;> rfl

/-- Witness for C3: the spec's scenarios.  An event labelled
`"heartbeat"` whose payload decodes to `42` invokes the heartbeat handler
with `42`; an event with unrecognized label `"bogus"` whose payload
decodes to `0` invokes the unknown handler with `0`. -/
theorem decoded_event_dispatched_once_witness :
    (processEvent (fun s => if s = "42" then some 42 else some 0)
      (fun _ _ => Except.ok ())
      ⟨some "heartbeat", some "42"⟩).invocation =
        some ⟨EventType.HEARTBEAT, 42⟩ ∧
    (processEvent (fun s => if s = "42" then some 42 else some 0)
      (fun _ _ => Except.ok ())
      ⟨some "bogus", some "{}"⟩).invocation =
        some ⟨EventType.UNKNOWN, 0⟩ := by
  constructor
  · exact decoded_event_dispatched_once _ _ _ "42" 42 rfl (by decide) rfl
  · exact decoded_event_dispatched_once _ _ _ "{}" 0 rfl (by decide) rfl

/-- **C10** — an event whose data payload is absent or empty is skipped
entirely: for every decoder and every handler registry the outcome is
`skipped` (so no decoding is attempted and no handler — including the
unknown handler — is invoked), it produces no invocation, no logged
error and no action, and the session continues with the next event. -/
theorem empty_payload_skipped {δ π : Type} (decode : String → Option δ)
    (handler : EventType → δ → Except String Unit) (e : RawEvent)
    (t : Nat) (rest : List RawEvent)
    (h : e.data = none ∨ e.data = some "") :
    processEvent decode handler e = .skipped ∧
    (processEvent decode handler e).invocation = none ∧
    eventActions t (processEvent decode handler e) =
      ([] : List (LoopAction δ π)) ∧
    (sessionSteps decode handler (fun _ => true) t (e :: rest)).1 =
      (t, EventOutcome.skipped) ::
        (sessionSteps decode handler (fun _ => true) (t + 1) rest).1 := by
  have hskip : processEvent decode handler e = .skipped := by
    rcases h with h | h <;> simp [processEvent, h]
  refine ⟨hskip, by rw [hskip]; rfl, by rw [hskip]; rfl, ?_⟩
  show ((t, processEvent decode handler e) ::
      (sessionSteps decode handler (fun _ => true) (t + 1) rest).1 : List _) = _
  rw [hskip]

/-- Witness for C10: a `"heartbeat"`-labelled event with absent data is
skipped, and one with empty data is skipped, even with a decoder that
would accept the empty string. -/
theorem empty_payload_skipped_witness :
    processEvent (fun _ => some 7) (fun _ _ => Except.ok ())
      ⟨some "heartbeat", none⟩ = .skipped ∧
    processEvent (fun _ => some 7) (fun _ _ => Except.ok ())
      ⟨some "heartbeat", some ""⟩ = .skipped := by
  constructor
  · exact (empty_payload_skipped (π := Unit) _ _ _ 0 [] (Or.inl rfl)).1
  · exact (empty_payload_skipped (π := Unit) _ _ _ 0 [] (Or.inr rfl)).1

/-- **C4** — a stop requested between two events: with the flag observed
true at the first `k` per-event checkpoints and false from the `k`-th on
(`k` less than the number of delivered events), the session processes
exactly the first `k` events — no later event is decoded, classified or
dispatched — breaks at the next checkpoint, and its outcome is
`stoppedByCaller` whatever the stream's ending would have been. -/
theorem stop_between_events {δ : Type} (decode : String → Option δ)
    (handler : EventType → δ → Except String Unit) (t k : Nat)
    (events : List RawEvent) (ending : StreamEnd)
    (hk : k < events.length) :
    (sessionSteps decode handler (fun i => decide (i < t + k)) t events).1 =
      ((events.take k).enumFrom t).map
        (fun p => (p.1, processEvent decode handler p.2)) ∧
    (sessionSteps decode handler (fun i => decide (i < t + k)) t events).2.1
      = true ∧
    sessionOutcome
      (sessionSteps decode handler (fun i => decide (i < t + k)) t
        events).2.1 ending = .stoppedByCaller := by
  induction events generalizing t k with
  | nil => exact absurd hk (by simp)
  | cons e rest ih =>
      cases k with
      | zero =>
          have hrf : ((fun i => decide (i < t + 0)) t = true) = False := by
            simp
          simp [sessionSteps, hrf, sessionOutcome]
      | succ j =>
          have hrt : (fun i => decide (i < t + (j + 1))) t = true := by
            simp
          have hfun : (fun i => decide (i < t + (j + 1))) =
              (fun i => decide (i < (t + 1) + j)) := by
            funext i
            have : t + (j + 1) = (t + 1) + j := by omega
            rw [this]
          have hk' : j < rest.length := by
            simpa using Nat.lt_of_succ_lt_succ hk
          have hstep :
              sessionSteps decode handler (fun i => decide (i < t + (j + 1)))
                t (e :: rest) =
              ((t, processEvent decode handler e) ::
                (sessionSteps decode handler
                  (fun i => decide (i < t + (j + 1))) (t + 1) rest).1,
               (sessionSteps decode handler
                  (fun i => decide (i < t + (j + 1))) (t + 1) rest).2) := by
            simp only [sessionSteps, hrt]
            rfl
          rw [hstep, hfun]
          obtain ⟨h1, h2, h3⟩ := ih (t + 1) j hk'
          refine ⟨?_, h2, ?_⟩
          · rw [h1]
            rfl
          · rw [h2]
            rfl

/-- Witness for C4: three delivered events, a stop landing after the
first one: only the first event is processed, the loop breaks, and the
outcome is `stoppedByCaller` even though the stream would have ended in a
read error. -/
theorem stop_between_events_witness :
    (1 : Nat) < ([⟨some "heartbeat", some "1"⟩, ⟨some "replay", some "2"⟩,
        ⟨some "heartbeat", some "3"⟩] : List RawEvent).length ∧
    (sessionSteps (fun s => some s.length) (fun _ _ => Except.ok ())
        (fun i => decide (i < 0 + 1)) 0
        [⟨some "heartbeat", some "1"⟩, ⟨some "replay", some "2"⟩,
         ⟨some "heartbeat", some "3"⟩]).1 =
      [(0, EventOutcome.dispatched ⟨EventType.HEARTBEAT, 1⟩)] ∧
    sessionOutcome
      (sessionSteps (fun s => some s.length) (fun _ _ => Except.ok ())
        (fun i => decide (i < 0 + 1)) 0
        [⟨some "heartbeat", some "1"⟩, ⟨some "replay", some "2"⟩,
         ⟨some "heartbeat", some "3"⟩]).2.1 (.readError "drop") =
      .stoppedByCaller := by
  have h := stop_between_events (fun s => some s.length)
    (fun _ _ => Except.ok ()) 0 1
    [⟨some "heartbeat", some "1"⟩, ⟨some "replay", some "2"⟩,
     ⟨some "heartbeat", some "3"⟩] (.readError "drop") (by decide)
  exact ⟨by decide, by rw [h.1]; rfl, h.2.2⟩

/-- Helper: every clock in a session log is at least the starting clock. -/
theorem sessionSteps_log_ge {δ : Type} (decode : String → Option δ)
    (handler : EventType → δ → Except String Unit) (running : Nat → Bool) :
    ∀ (t : Nat) (events : List RawEvent),
      ∀ p ∈ (sessionSteps decode handler running t events).1, t ≤ p.1 := by
  intro t events
  induction events generalizing t with
  | nil => simp [sessionSteps]
  | cons e rest ih =>
      intro p hp
      by_cases hr : running t = true
      · have hstep :
            (sessionSteps decode handler running t (e :: rest)).1 =
            (t, processEvent decode handler e) ::
              (sessionSteps decode handler running (t + 1) rest).1 := by
          simp only [sessionSteps, hr]
          rfl
        rw [hstep] at hp
        rcases List.mem_cons.1 hp with h | h
        · subst h; exact Nat.le_refl t
        · exact Nat.le_trans (Nat.le_succ t) (ih (t + 1) p h)
      · have hstep :
            (sessionSteps decode handler running t (e :: rest)).1 = [] := by
          simp only [sessionSteps, hr]
          rfl
        rw [hstep] at hp
        exact absurd hp (List.not_mem_nil p)

/-- Helper: the strict ordering of log clocks survives restriction to the
dispatched invocations. -/
theorem pairwise_dispatchedOf {δ : Type} (log : List (Nat × EventOutcome δ))
    (h : List.Pairwise (fun a b => a.1 < b.1) log) :
    List.Pairwise (fun a b => a.1 < b.1) (dispatchedOf log) := by
  induction log with
  | nil => simp [dispatchedOf]
  | cons p rest ih =>
      rcases List.pairwise_cons.1 h with ⟨hp, hrest⟩
      simp only [dispatchedOf, List.filterMap_cons]
      cases hinv : p.2.invocation with
      | none => exact ih hrest
      | some inv =>
          simp only [Option.map_some']
          refine List.pairwise_cons.2 ⟨?_, ih hrest⟩
          intro q hq
          obtain ⟨r, hr, hqr⟩ := List.mem_filterMap.1 hq
          obtain ⟨inv', hinv', hq'⟩ := Option.map_eq_some'.1 hqr
          rw [← hq']
          exact hp r hr

/-- **C7** — events are processed strictly in delivery order: for any
stop-flag behaviour, the per-event log clocks are strictly increasing, so
are the clocks of the dispatched handler invocations, and with no stop
requested the dispatched invocations are exactly the in-order selection
of the delivered events that decoded.  The model is a single sequential
loop: no two events of a session are processed concurrently. -/
theorem handlers_invoked_in_order {δ : Type} (decode : String → Option δ)
    (handler : EventType → δ → Except String Unit) (running : Nat → Bool)
    (t : Nat) (events : List RawEvent) :
    List.Pairwise (fun a b => a.1 < b.1)
      (sessionSteps decode handler running t events).1 ∧
    List.Pairwise (fun a b => a.1 < b.1)
      (dispatchedOf (sessionSteps decode handler running t events).1) ∧
    dispatchedOf
        (sessionSteps decode handler (fun _ => true) t events).1 =
      (events.enumFrom t).filterMap
        (fun p => ((processEvent decode handler p.2).invocation).map
          (fun inv => (p.1, inv))) := by
  have hpw : List.Pairwise (fun a b => a.1 < b.1)
      (sessionSteps decode handler running t events).1 := by
    induction events generalizing t with
    | nil => simp [sessionSteps]
    | cons e rest ih =>
        by_cases hr : running t = true
        · have hstep :
              (sessionSteps decode handler running t (e :: rest)).1 =
              (t, processEvent decode handler e) ::
                (sessionSteps decode handler running (t + 1) rest).1 := by
            simp only [sessionSteps, hr]
            rfl
          rw [hstep]
          refine List.pairwise_cons.2 ⟨?_, ih (t + 1)⟩
          intro q hq
          exact Nat.lt_of_lt_of_le (Nat.lt_succ_self t)
            (sessionSteps_log_ge decode handler running (t + 1) rest q hq)
        · have hstep :
              (sessionSteps decode handler running t (e :: rest)).1 = [] := by
            simp only [sessionSteps, hr]
            rfl
          rw [hstep]
          exact List.Pairwise.nil
  refine ⟨hpw, pairwise_dispatchedOf _ hpw, ?_⟩
  rw [sessionSteps_run_all]
  simp only [dispatchedOf, List.filterMap_map]
  rfl

/-- **C6** — failed connect attempts: when every attempt fails at the
transport level and no stop is requested, each iteration of the loop
performs exactly the connect attempt, the error log and a sleep of
`retry` before the next attempt — no event is produced or dispatched —
and after any number `fuel` of iterations the loop is still running
(`outOfFuel`, never `exited`): it never terminates on its own.  When the
flag reads false at the `while` checkpoint, the loop returns at once. -/
theorem connect_failures_retry_forever {δ π : Type}
    (decode : String → Option δ)
    (handler : EventType → δ → Except String Unit) (retry : Nat)
    (msg : String) (p : π) :
    (∀ fuel t k,
      connectLoop decode handler retry (fun _ => true)
          (fun _ => AttemptSpec.connectFail msg) p fuel t k =
        (List.flatten (List.replicate fuel
          [LoopAction.connectAttempt p, LoopAction.logConnectError,
           LoopAction.sleep retry]),
         LoopResult.outOfFuel (t + 2 * fuel) (k + fuel), p)) ∧
    (∀ fuel t k,
      connectLoop decode handler retry (fun _ => false)
          (fun _ => AttemptSpec.connectFail msg) p (fuel + 1) t k =
        ([], LoopResult.exited t k, p)) := by
  constructor
  · intro fuel
    induction fuel with
    | zero => intro t k; simp [connectLoop]
    | succ n ih =>
        intro t k
        have hstep :
            connectLoop decode handler retry (fun _ => true)
              (fun _ => AttemptSpec.connectFail msg) p (n + 1) t k =
            (LoopAction.connectAttempt p :: LoopAction.logConnectError ::
              LoopAction.sleep retry ::
              (connectLoop decode handler retry (fun _ => true)
                (fun _ => AttemptSpec.connectFail msg) p n (t + 2)
                (k + 1)).1,
             (connectLoop decode handler retry (fun _ => true)
                (fun _ => AttemptSpec.connectFail msg) p n (t + 2)
                (k + 1)).2.1, p) := rfl
        rw [hstep, ih (t + 2) (k + 1)]
        have h1 : t + 2 + 2 * n = t + 2 * (n + 1) := by omega
        have h2 : k + 1 + n = k + (n + 1) := by omega
        simp [List.replicate_succ, h1, h2]
  · intro fuel t k
    rfl

/-- **C8 counterexample** — the claim that no operation of an existing
client transitions the flag back to Running fails: calling `connect` on
an existing stopped client sets `self.running = True` at entry (line 62
of `cli.py`). -/
theorem running_flag_reset_by_connect :
    ((AvisoSSEClient.init "http://localhost:8000" 5).stop).running = false ∧
    (ClientOp.apply ClientOp.connectEntry
        ((AvisoSSEClient.init "http://localhost:8000" 5).stop)).running
      = true := by
  exact ⟨rfl, rfl⟩

/-- **C8 (amended)** — `stop()` sets the flag to not-running and is
idempotent (once or repeatedly, same resulting state); a fresh client
starts not-running; and the only state-writing operation of an existing
client that sets the flag back to Running is entering `connect`, which
sets it unconditionally — `stop`, the sole other operation, always leaves
the flag false. -/
theorem run_state_transitions (c : AvisoSSEClient) :
    c.stop.running = false ∧
    c.stop.stop = c.stop ∧
    (AvisoSSEClient.init c.base_url c.retry_interval).running = false ∧
    (ClientOp.apply ClientOp.stop c).running = false ∧
    (ClientOp.apply ClientOp.connectEntry c).running = true := by
  exact ⟨rfl, rfl, rfl, rfl, rfl⟩

/-- **C5 counterexample** — a session that the transport ends normally
(end-of-stream) is *not* followed by a retry wait: with two consecutive
attempts that each open and immediately reach end-of-stream and the flag
always true, the trace is two back-to-back connect attempts with no
`sleep` anywhere, while the loop is still running.  `time.sleep` is only
reached from the `except` branches of `cli.py`, and a normal end of the
`for` loop raises nothing. -/
theorem no_wait_after_end_of_stream :
    (connectLoop (fun _ => (none : Option Nat)) (fun _ _ => Except.ok ())
        5 (fun _ => true) (fun _ => AttemptSpec.stream [] StreamEnd.normal)
        (0 : Nat) 2 0 0).1 =
      [LoopAction.connectAttempt 0, LoopAction.connectAttempt 0] ∧
    ¬ (LoopAction.sleep 5 ∈
      (connectLoop (fun _ => (none : Option Nat)) (fun _ _ => Except.ok ())
        5 (fun _ => true) (fun _ => AttemptSpec.stream [] StreamEnd.normal)
        (0 : Nat) 2 0 0).1) ∧
    (connectLoop (fun _ => (none : Option Nat)) (fun _ _ => Except.ok ())
        5 (fun _ => true) (fun _ => AttemptSpec.stream [] StreamEnd.normal)
        (0 : Nat) 2 0 0).2.1 = LoopResult.outOfFuel 2 2 := by
  refine ⟨rfl, ?_, rfl⟩
  decide

/-- **C5 (amended)** — retry wait after disconnection by error only: a
session ending in a read error is followed (the flag still reading true)
by the logged error and a sleep of `retryInterval` before the next
iteration of the loop; a session that the transport ends normally is
followed immediately by the next iteration, with nothing — in particular
no sleep — in between. -/
theorem retry_wait_policy {δ π : Type} (decode : String → Option δ)
    (handler : EventType → δ → Except String Unit) (retry : Nat)
    (attempts : Nat → AttemptSpec δ) (p : π) (fuel t k : Nat)
    (events : List RawEvent) (msg : String) :
    (attempts k = AttemptSpec.stream events (StreamEnd.readError msg) →
      (connectLoop decode handler retry (fun _ => true) attempts p
          (fuel + 1) t k).1 =
        LoopAction.connectAttempt p ::
          sessionActions
            (sessionSteps decode handler (fun _ => true) (t + 1) events).1 ++
          LoopAction.logStreamError msg :: LoopAction.sleep retry ::
          (connectLoop decode handler retry (fun _ => true) attempts p fuel
            ((sessionSteps decode handler (fun _ => true) (t + 1)
              events).2.2 + 1) (k + 1)).1) ∧
    (attempts k = AttemptSpec.stream events StreamEnd.normal →
      (connectLoop decode handler retry (fun _ => true) attempts p
          (fuel + 1) t k).1 =
        LoopAction.connectAttempt p ::
          sessionActions
            (sessionSteps decode handler (fun _ => true) (t + 1) events).1 ++
          (connectLoop decode handler retry (fun _ => true) attempts p fuel
            (sessionSteps decode handler (fun _ => true) (t + 1)
              events).2.2 (k + 1)).1) := by
  have hs := sessionSteps_run_all decode handler (t + 1) events
  constructor
  · intro h
    simp only [connectLoop, h, hs]
    rfl
  · intro h
    simp only [connectLoop, h, hs]
    rfl

/-- Witness for the amended C5: one read-error session and one
normal-end session, concretely: the read error is followed by the logged
error and a 5-unit sleep before the rest of the loop; the normal end is
followed by the rest of the loop immediately. -/
theorem retry_wait_policy_witness :
    (connectLoop (fun _ => (none : Option Nat)) (fun _ _ => Except.ok ()) 5
        (fun _ => true)
        (fun _ => AttemptSpec.stream [] (StreamEnd.readError "boom"))
        (0 : Nat) 2 0 0).1 =
      LoopAction.connectAttempt 0 ::
        sessionActions (sessionSteps (fun _ => (none : Option Nat))
          (fun _ _ => Except.ok ()) (fun _ => true) 1 []).1 ++
        LoopAction.logStreamError "boom" :: LoopAction.sleep 5 ::
        (connectLoop (fun _ => (none : Option Nat))
          (fun _ _ => Except.ok ()) 5 (fun _ => true)
          (fun _ => AttemptSpec.stream [] (StreamEnd.readError "boom"))
          (0 : Nat) 1 2 1).1 ∧
    (connectLoop (fun _ => (none : Option Nat)) (fun _ _ => Except.ok ()) 5
        (fun _ => true) (fun _ => AttemptSpec.stream [] StreamEnd.normal)
        (0 : Nat) 2 0 0).1 =
      LoopAction.connectAttempt 0 ::
        sessionActions (sessionSteps (fun _ => (none : Option Nat))
          (fun _ _ => Except.ok ()) (fun _ => true) 1 []).1 ++
        (connectLoop (fun _ => (none : Option Nat))
          (fun _ _ => Except.ok ()) 5 (fun _ => true)
          (fun _ => AttemptSpec.stream [] StreamEnd.normal)
          (0 : Nat) 1 1 1).1 := by
  constructor
  · exact (retry_wait_policy (fun _ => (none : Option Nat))
      (fun _ _ => Except.ok ()) 5
      (fun _ => AttemptSpec.stream [] (StreamEnd.readError "boom"))
      (0 : Nat) 1 0 0 [] "boom").1 rfl
  · exact (retry_wait_policy (fun _ => (none : Option Nat))
      (fun _ _ => Except.ok ()) 5
      (fun _ => AttemptSpec.stream [] StreamEnd.normal)
      (0 : Nat) 1 0 0 [] "boom").2 rfl

/-- Helper: a connect attempt contributes its payload. -/
theorem connectPayloads_cons_connectAttempt {δ π : Type} (q : π)
    (l : List (LoopAction δ π)) :
    connectPayloads (LoopAction.connectAttempt q :: l) =
      q :: connectPayloads l := rfl

/-- Helper: `connectPayloads` of an empty trace. -/
theorem connectPayloads_nil {δ π : Type} :
    connectPayloads ([] : List (LoopAction δ π)) = [] := rfl

/-- Helper: a logged connect error carries no payload. -/
theorem connectPayloads_cons_logConnectError {δ π : Type}
    (l : List (LoopAction δ π)) :
    connectPayloads (LoopAction.logConnectError :: l) =
      connectPayloads l := rfl

/-- Helper: a logged stream error carries no payload. -/
theorem connectPayloads_cons_logStreamError {δ π : Type} (m : String)
    (l : List (LoopAction δ π)) :
    connectPayloads (LoopAction.logStreamError m :: l) =
      connectPayloads l := rfl

/-- Helper: a sleep carries no payload. -/
theorem connectPayloads_cons_sleep {δ π : Type} (i : Nat)
    (l : List (LoopAction δ π)) :
    connectPayloads (LoopAction.sleep i :: l) = connectPayloads l := rfl

/-- Helper: `connectPayloads` distributes over append. -/
theorem connectPayloads_append {δ π : Type} (l1 l2 : List (LoopAction δ π)) :
    connectPayloads (l1 ++ l2) = connectPayloads l1 ++ connectPayloads l2 := by
  simp [connectPayloads]

/-- Helper: per-event actions carry no subscription payload. -/
theorem connectPayloads_eventActions {δ π : Type} (t : Nat)
    (o : EventOutcome δ) :
    connectPayloads (eventActions t o : List (LoopAction δ π)) = [] := by
  cases o <;> rfl

/-- Helper: a session's actions carry no subscription payload. -/
theorem connectPayloads_sessionActions {δ π : Type}
    (log : List (Nat × EventOutcome δ)) :
    connectPayloads (sessionActions log : List (LoopAction δ π)) = [] := by
  induction log with
  | nil => rfl
  | cons q rest ih =>
      have hstep : sessionActions (q :: rest) =
          (eventActions q.1 q.2 : List (LoopAction δ π)) ++
            sessionActions rest := rfl
      rw [hstep, connectPayloads_append, connectPayloads_eventActions, ih]
      rfl

/-- Helper: one iteration of the loop either produces no trace at all (the
`while` condition read false) or contributes exactly one subscription
payload — the unchanged `p` — before the payloads of the remaining
iterations. -/
theorem connectLoop_payload_step {δ π : Type} (decode : String → Option δ)
    (handler : EventType → δ → Except String Unit) (retry : Nat)
    (running : Nat → Bool) (attempts : Nat → AttemptSpec δ) (p : π)
    (n t k : Nat) :
    (connectLoop decode handler retry running attempts p (n + 1) t k).1
      = [] ∨
    ∃ t2, connectPayloads
        (connectLoop decode handler retry running attempts p
          (n + 1) t k).1 =
      p :: connectPayloads
        (connectLoop decode handler retry running attempts p
          n t2 (k + 1)).1 := by
  by_cases hr : running t = true
  · right
    cases hak : attempts k with
    | connectFail msg =>
        refine ⟨t + 2, ?_⟩
        simp only [connectLoop, hak, if_pos hr]
        by_cases hr2 : running (t + 1) = true <;>
          simp [hr2, connectPayloads_cons_connectAttempt,
            connectPayloads_cons_logConnectError, connectPayloads_cons_sleep,
            connectPayloads_nil]
    | stream events ending =>
        simp only [connectLoop, hak, if_pos hr]
        cases hout : sessionOutcome
            (sessionSteps decode handler running (t + 1) events).2.1
            ending with
        | disconnectedByError m =>
            by_cases hr2 : running
                ((sessionSteps decode handler running (t + 1)
                  events).2.2) = true
            · refine ⟨(sessionSteps decode handler running (t + 1)
                events).2.2 + 1, ?_⟩
              simp [hout, hr2, connectPayloads_cons_connectAttempt,
                connectPayloads_append, connectPayloads_sessionActions,
                connectPayloads_cons_logStreamError, connectPayloads_cons_sleep,
                connectPayloads_nil]
            · refine ⟨(sessionSteps decode handler running (t + 1)
                events).2.2 + 1, ?_⟩
              simp [hout, hr2, connectPayloads_cons_connectAttempt,
                connectPayloads_append, connectPayloads_sessionActions,
                connectPayloads_cons_logStreamError, connectPayloads_cons_sleep,
                connectPayloads_nil]
        | stoppedByCaller =>
            refine ⟨(sessionSteps decode handler running (t + 1)
              events).2.2, ?_⟩
            simp [hout, connectPayloads_cons_connectAttempt,
              connectPayloads_append, connectPayloads_sessionActions,
              connectPayloads_cons_logStreamError, connectPayloads_cons_sleep,
              connectPayloads_nil]
        | endOfStream =>
            refine ⟨(sessionSteps decode handler running (t + 1)
              events).2.2, ?_⟩
            simp [hout, connectPayloads_cons_connectAttempt,
              connectPayloads_append, connectPayloads_sessionActions,
              connectPayloads_cons_logStreamError, connectPayloads_cons_sleep,
              connectPayloads_nil]
  · left
    simp only [connectLoop, if_neg hr]

/-- Helper: the subscription payload returned by the loop is the one it
was given, for any flag behaviour and any schedule of attempts. -/
theorem connectLoop_payload_id {δ π : Type} (decode : String → Option δ)
    (handler : EventType → δ → Except String Unit) (retry : Nat)
    (running : Nat → Bool) (attempts : Nat → AttemptSpec δ) (p : π)
    (fuel t k : Nat) :
    (connectLoop decode handler retry running attempts p fuel t k).2.2
      = p := by
  cases fuel with
  | zero => rfl
  | succ n =>
      by_cases hr : running t = true
      · cases hak : attempts k with
        | connectFail msg =>
            simp only [connectLoop, hak, if_pos hr]
        | stream events ending =>
            simp only [connectLoop, hak, if_pos hr]
            cases hout : sessionOutcome
                (sessionSteps decode handler running (t + 1) events).2.1
                ending <;> simp [hout]
      · simp only [connectLoop, if_neg hr]

/-- Helper: every subscription payload posted by the loop is the given
one. -/
theorem connectLoop_payloads_mem {δ π : Type} (decode : String → Option δ)
    (handler : EventType → δ → Except String Unit) (retry : Nat)
    (running : Nat → Bool) (attempts : Nat → AttemptSpec δ) (p : π) :
    ∀ fuel t k q,
      q ∈ connectPayloads
        (connectLoop decode handler retry running attempts p fuel t k).1 →
      q = p := by
  intro fuel
  induction fuel with
  | zero =>
      intro t k q hq
      exact absurd hq (by simp [connectLoop, connectPayloads])
  | succ n ih =>
      intro t k q hq
      rcases connectLoop_payload_step decode handler retry running attempts
        p n t k with h | ⟨t2, h⟩
      · rw [h] at hq
        exact absurd hq (by simp [connectPayloads])
      · rw [h] at hq
        rcases List.mem_cons.1 hq with h1 | h1
        · exact h1
        · exact ih t2 (k + 1) q h1

/-- **C9** — the subscription payload is never mutated by the
connect/consume/reconnect loop: for any flag behaviour, any schedule of
attempts (any number of events and reconnects) and any amount of fuel,
the payload held after the loop is the one given to it, and every
`requests.post` of the trace carried exactly that payload. -/
theorem payload_never_mutated {δ π : Type} (decode : String → Option δ)
    (handler : EventType → δ → Except String Unit) (retry : Nat)
    (running : Nat → Bool) (attempts : Nat → AttemptSpec δ) (p : π)
    (fuel t k : Nat) :
    (connectLoop decode handler retry running attempts p fuel t k).2.2
      = p ∧
    connectPayloads
        (connectLoop decode handler retry running attempts p fuel t k).1 =
      List.replicate
        (connectPayloads
          (connectLoop decode handler retry running attempts p
            fuel t k).1).length p := by
  refine ⟨connectLoop_payload_id decode handler retry running attempts p
    fuel t k, List.eq_replicate_length.2 ?_⟩
  intro q hq
  exact connectLoop_payloads_mem decode handler retry running attempts p
    fuel t k q hq
